import Mathlib

/-!
Shallow embedding of the `you_are_autosave` mage build script
(`magefiles/manifest.go`, `magefiles/build.go`, `mage.go`) and proofs of the
spec's claims about it.

Modelling conventions:
* Go functions returning `error` become functions returning `Outcome`;
  `panic(...)` becomes the `Outcome.fatal` constructor (an unrecoverable abort).
* Side effects (file read, TOML parse, stdout writes, directory creation,
  external process spawns) are recorded in an ordered trace of `Effect`s.
  A `World` supplies the outcome of each external interaction, so every
  operation is a pure function `World → List Effect × Outcome α`.
* `fmt.Printf` with a trailing `\n` and `fmt.Println` are both modelled as
  `Effect.printLine s`, meaning `s` followed by a newline is written to stdout.
* The TOML grammar itself is external (third-party `go-toml/v2` library); a
  `World` carries the parser as an abstract function from raw file content to a
  parsed top-level key/value document.  The struct-decoding step of
  `toml.Unmarshal` is modelled concretely below (`decodeManifestFields`).
* `filepath.Join`, `filepath.Dir` follow Go's `path/filepath` for Unix
  (join with `/`, then lexically clean the result).
-/

/-- The fragment of TOML values needed by this build script: the manifest's
top-level keys hold strings and integers; booleans stand in for any other
non-matching scalar shape. -/
inductive TomlValue where
  | str (s : String)
  | int (n : Int)
  | boolean (b : Bool)
  deriving Repr, DecidableEq

/-- A parsed TOML document, restricted to its top-level key/value pairs (all
this script ever decodes). -/
abbrev TomlDoc := List (String × TomlValue)

/-- Go struct `BlenderManifest` from `magefiles/manifest.go`: "just enough of a model for
blender_manifest.toml to read what this build tool needs".  Go `int` is
modelled as `Int` (the manifest schema version is tiny; overflow is moot). -/
structure BlenderManifest where
  SchemaVersion : Int
  Version : String
  Name : String
  deriving Repr, DecidableEq

/-- The duplicate `BlenderManifest` struct declared in `mage.go` (package
`main` of the repository root), which has only the schema-version and version
fields. -/
structure RootBlenderManifest where
  SchemaVersion : Int
  Version : String
  deriving Repr, DecidableEq

/-- Result of a Go function in this script: a normal return, a returned
`error`, or a `panic` (unrecoverable abort of the whole invocation). -/
inductive Outcome (α : Type) where
  | ok (a : α)
  | err (e : String)
  | fatal (msg : String)
  deriving Repr, DecidableEq

/-- One observable side effect of an operation, in order of occurrence. -/
inductive Effect where
  | readFile (path : String)
  | parseManifest (raw : String)
  | printLine (s : String)
  | mkdirAll (path : String) (perm : Nat)
  | runV (cmd : String) (args : List String)
  deriving Repr, DecidableEq

/-- The external world an invocation runs against: the result of reading the
manifest file, the third-party TOML grammar parser, and the results of
directory creation and external process runs (`none` = success,
`some e` = the error `e`). -/
structure World where
  readFileResult : Except String String
  parseResult : String → Except String TomlDoc
  mkdirAllResult : String → Nat → Option String
  runVResult : String → List String → Option String

/-- Whether a TOML value is an integer (decodes into a Go `int` field). -/
def TomlValue.isInt : TomlValue → Bool
  | .int _ => true
  | _ => false

/-- Whether a TOML value is a string (decodes into a Go `string` field). -/
def TomlValue.isStr : TomlValue → Bool
  | .str _ => true
  | _ => false

/-- Modelled from the spec: the struct-decoding half of the third-party
`toml.Unmarshal` (go-toml/v2, not part of this repository).  Per the spec, the
top-level keys `schema_version`, `version` and `name` populate the Manifest
Record's integer, string and string fields respectively; a value of the wrong
type is a decode error; unknown/extra keys are silently ignored; keys that
never occur leave the Go zero value already in the accumulator. -/
def decodeManifestFields : TomlDoc → BlenderManifest → Except String BlenderManifest
  | [], m => .ok m
  | (k, v) :: rest, m =>
    if k = "schema_version" then
      match v with
      | .int n => decodeManifestFields rest (BlenderManifest.mk n m.Version m.Name)
      | _ => .error "toml: cannot decode TOML value into int field SchemaVersion"
    else if k = "version" then
      match v with
      | .str s => decodeManifestFields rest (BlenderManifest.mk m.SchemaVersion s m.Name)
      | _ => .error "toml: cannot decode TOML value into string field Version"
    else if k = "name" then
      match v with
      | .str s => decodeManifestFields rest (BlenderManifest.mk m.SchemaVersion m.Version s)
      | _ => .error "toml: cannot decode TOML value into string field Name"
    else
      decodeManifestFields rest m

/-- Run of `toml.Unmarshal` into a fresh `BlenderManifest` (Go zero values: `0`, `""`,
`""`), as `loadManifest` does with `var manifest BlenderManifest`. -/
def tomlUnmarshalManifest (doc : TomlDoc) : Except String BlenderManifest :=
  decodeManifestFields doc (BlenderManifest.mk 0 "" "")

/-- Modelled from the spec, like `decodeManifestFields` but for the root
`mage.go` struct, which declares only the schema-version and version fields;
here `name` is an unknown key and is ignored. -/
def decodeRootManifestFields : TomlDoc → RootBlenderManifest → Except String RootBlenderManifest
  | [], m => .ok m
  | (k, v) :: rest, m =>
    if k = "schema_version" then
      match v with
      | .int n => decodeRootManifestFields rest (RootBlenderManifest.mk n m.Version)
      | _ => .error "toml: cannot decode TOML value into int field SchemaVersion"
    else if k = "version" then
      match v with
      | .str s => decodeRootManifestFields rest (RootBlenderManifest.mk m.SchemaVersion s)
      | _ => .error "toml: cannot decode TOML value into string field Version"
    else
      decodeRootManifestFields rest m

/-- Run of `toml.Unmarshal` into a fresh `RootBlenderManifest`. -/
def tomlUnmarshalRootManifest (doc : TomlDoc) : Except String RootBlenderManifest :=
  decodeRootManifestFields doc (RootBlenderManifest.mk 0 "")

/-- Split a character list on `/`, keeping empty segments (like splitting a
path into its slash-separated components). -/
def splitSlash : List Char → List (List Char)
  | [] => [[]]
  | c :: rest =>
    if c = '/' then [] :: splitSlash rest
    else
      match splitSlash rest with
      | [] => [[c]]
      | h :: t => (c :: h) :: t

/-- Join components back with `/` between them. -/
def joinSlash : List (List Char) → List Char
  | [] => []
  | [x] => x
  | x :: rest => x ++ '/' :: joinSlash rest

/-- The component-processing loop of Go's `path.Clean`: drop empty and `.`
components, let `..` cancel a preceding normal component (or be dropped at the
root, or kept at the front of a relative path).  `stack` holds the output
components in reverse. -/
def cleanStack (rooted : Bool) (stack : List (List Char)) : List (List Char) → List (List Char)
  | [] => stack
  | c :: rest =>
    if c = [] ∨ c = ['.'] then cleanStack rooted stack rest
    else if c = ['.', '.'] then
      match stack with
      | top :: stackRest =>
        if top = ['.', '.'] then cleanStack rooted (c :: stack) rest
        else cleanStack rooted stackRest rest
      | [] =>
        if rooted then cleanStack rooted [] rest
        else cleanStack rooted [c] rest
    else cleanStack rooted (c :: stack) rest

/-- Model of Go `path/filepath.Clean` for Unix, on a character list.  The empty path
cleans to `.`; a rooted result keeps its leading `/`; an empty relative result
becomes `.`. -/
def cleanPathList (cs : List Char) : List Char :=
  if cs = [] then ['.']
  else if cs.head? = some '/' then
    '/' :: joinSlash (cleanStack true [] (splitSlash cs)).reverse
  else
    let body := joinSlash (cleanStack false [] (splitSlash cs)).reverse
    if body = [] then ['.'] else body

/-- Model of Go `path/filepath.Clean` for Unix. -/
def cleanPath (p : String) : String :=
  String.mk (cleanPathList p.data)

/-- Model of Go `path/filepath.Join` for Unix on two elements: empty elements are
skipped, the rest are joined with `/` and cleaned; all-empty input yields the
empty string. -/
def filepathJoin2 (a b : String) : String :=
  if a = "" then
    if b = "" then "" else cleanPath b
  else if b = "" then cleanPath a
  else String.mk (cleanPathList (a.data ++ '/' :: b.data))

/-- The characters of a path up to and including its last `/`, if any
(the un-cleaned directory part used by Go's `filepath.Dir`). -/
def dirPrefix : List Char → Option (List Char)
  | [] => none
  | c :: rest =>
    match dirPrefix rest with
    | some d => some (c :: d)
    | none => if c = '/' then some ['/'] else none

/-- Model of Go `path/filepath.Dir` for Unix: everything up to the final separator,
cleaned; `.` when the path has no separator. -/
def filepathDir (p : String) : String :=
  match dirPrefix p.data with
  | none => "."
  | some d => String.mk (cleanPathList d)

/-- Go function `loadManifest` from `magefiles/manifest.go`: read
`blender_manifest.toml`, panicking with "cannot read blender manifest: ..." on
a read error; `toml.Unmarshal` it (grammar parse, then field decode),
panicking with "cannot parse blender manifest: ..." on either failure; return
the decoded record. -/
def loadManifest (w : World) : List Effect × Outcome BlenderManifest :=
  match w.readFileResult with
  | .error e =>
    ([.readFile "blender_manifest.toml"], .fatal ("cannot read blender manifest: " ++ e))
  | .ok raw =>
    match w.parseResult raw with
    | .error e =>
      ([.readFile "blender_manifest.toml", .parseManifest raw],
       .fatal ("cannot parse blender manifest: " ++ e))
    | .ok doc =>
      match tomlUnmarshalManifest doc with
      | .error e =>
        ([.readFile "blender_manifest.toml", .parseManifest raw],
         .fatal ("cannot parse blender manifest: " ++ e))
      | .ok m =>
        ([.readFile "blender_manifest.toml", .parseManifest raw], .ok m)

/-- The pure path derivation inside `buildZipPath`:
`filepath.Join("dist", fmt.Sprintf("you-are-autosave-v%s.zip", version))`. -/
def zipPathOfVersion (version : String) : String :=
  filepathJoin2 "dist" ("you-are-autosave-v" ++ version ++ ".zip")

/-- Go function `buildZipPath` from `magefiles/manifest.go`: load the manifest and derive
the output archive path from its version string. -/
def buildZipPath (w : World) : List Effect × Outcome String :=
  match loadManifest w with
  | (t, .ok m) => (t, .ok (zipPathOfVersion m.Version))
  | (t, .err e) => (t, .err e)
  | (t, .fatal msg) => (t, .fatal msg)

/-- Go target `Info` from `magefiles/manifest.go`: load the manifest and print the
`Name   : ...` and `Version: ...` lines. -/
def Info (w : World) : List Effect × Outcome Unit :=
  match loadManifest w with
  | (t, .ok m) =>
    (t ++ [.printLine ("Name   : " ++ m.Name), .printLine ("Version: " ++ m.Version)], .ok ())
  | (t, .err e) => (t, .err e)
  | (t, .fatal msg) => (t, .fatal msg)

/-- Model of `sh.RunV`: spawn the command with inherited streams and return `nil` on a
zero exit, the wrapped error otherwise. -/
def shRunV (w : World) (cmd : String) (args : List String) : List Effect × Outcome Unit :=
  ([.runV cmd args],
   match w.runVResult cmd args with
   | none => .ok ()
   | some e => .err e)

/-- Go target `Validate` from `magefiles/build.go`:
`sh.RunV("blender", "--command", "extension", "validate")`. -/
def Validate (w : World) : List Effect × Outcome Unit :=
  shRunV w "blender" ["--command", "extension", "validate"]

/-- Go target `Build` from `magefiles/build.go`: derive the zip path, attempt to create
its directory — note the source's `if err != nil { return nil }`, which
returns a `nil` error at once when `MkdirAll` fails — then print
`Creating <path>` and run `blender --command extension build
--output-filepath <path>`. -/
def Build (w : World) : List Effect × Outcome Unit :=
  match buildZipPath w with
  | (t, .ok zipPath) =>
    let zipDir := filepathDir zipPath
    let t := t ++ [.mkdirAll zipDir 0o777]
    match w.mkdirAllResult zipDir 0o777 with
    | some _ => (t, .ok ())
    | none =>
      let t := t ++ [.printLine ("Creating " ++ zipPath)]
      let args := ["--command", "extension", "build", "--output-filepath", zipPath]
      match w.runVResult "blender" args with
      | none => (t ++ [.runV "blender" args], .ok ())
      | some e => (t ++ [.runV "blender" args], .err e)
  | (t, .err e) => (t, .err e)
  | (t, .fatal msg) => (t, .fatal msg)

/-- Go target `ValidateAndBuild` from `magefiles/build.go` via `mg.SerialDeps(Validate,
Build)`.  Modelled from the spec: mage's `SerialDeps` (third-party task
runner, not part of this repository) runs the targets in order as fail-fast
sequential composition — a failing target aborts the sequence and its failure
becomes the overall result, so `Build` is never started after a failing
`Validate`. -/
def ValidateAndBuild (w : World) : List Effect × Outcome Unit :=
  match Validate w with
  | (t, .ok _) =>
    match Build w with
    | (t2, r) => (t ++ t2, r)
  | (t, .err e) => (t, .err e)
  | (t, .fatal msg) => (t, .fatal msg)

/-- Go target `Version` from `mage.go`: read and unmarshal the manifest with the root
package's own two-field struct (panicking exactly as `loadManifest` does on a
read or parse failure), then `fmt.Println` the version string. -/
def Version (w : World) : List Effect × Outcome Unit :=
  match w.readFileResult with
  | .error e =>
    ([.readFile "blender_manifest.toml"], .fatal ("cannot read blender manifest: " ++ e))
  | .ok raw =>
    match w.parseResult raw with
    | .error e =>
      ([.readFile "blender_manifest.toml", .parseManifest raw],
       .fatal ("cannot parse blender manifest: " ++ e))
    | .ok doc =>
      match tomlUnmarshalRootManifest doc with
      | .error e =>
        ([.readFile "blender_manifest.toml", .parseManifest raw],
         .fatal ("cannot parse blender manifest: " ++ e))
      | .ok m =>
        ([.readFile "blender_manifest.toml", .parseManifest raw, .printLine m.Version], .ok ())

/-- Whether an effect is an external process spawn. -/
def Effect.isRunV : Effect → Bool
  | .runV _ _ => true
  | _ => false

/-- Whether an effect is a stdout line. -/
def Effect.isPrint : Effect → Bool
  | .printLine _ => true
  | _ => false

/-- A character list with no path separator. -/
def noSlash (cs : List Char) : Bool :=
  cs.all (fun c => !(c == '/'))

/-- Splitting a slash-free character list yields that single component. -/
theorem splitSlash_of_noSlash (l : List Char) (h : noSlash l = true) : splitSlash l = [l] := by
  induction l with
  | nil => rfl
  | cons c rest ih =>
    simp only [noSlash, List.all_cons, Bool.and_eq_true, Bool.not_eq_true',
      beq_eq_false_iff_ne, ne_eq] at h
    have hrest := ih (by simpa [noSlash] using h.2)
    simp [splitSlash, h.1, hrest]

/-- Splitting at the first slash after a slash-free prefix peels that prefix
off as the first component. -/
theorem splitSlash_append_slash (a b : List Char) (h : noSlash a = true) :
    splitSlash (a ++ '/' :: b) = a :: splitSlash b := by
  induction a with
  | nil => simp [splitSlash]
  | cons c rest ih =>
    simp only [noSlash, List.all_cons, Bool.and_eq_true, Bool.not_eq_true',
      beq_eq_false_iff_ne, ne_eq] at h
    have hrest := ih (by simpa [noSlash] using h.2)
    simp [splitSlash, h.1, hrest]

/-- Cleaning a path of the shape `dist/<component>` where the component starts
with `y` and has no separators is the identity. -/
theorem cleanPathList_dist_zip (t : List Char) (h : noSlash t = true) :
    cleanPathList ('d' :: 'i' :: 's' :: 't' :: '/' :: 'y' :: t)
      = 'd' :: 'i' :: 's' :: 't' :: '/' :: 'y' :: t := by
  have h1 : noSlash ('y' :: t) = true := by simpa [noSlash] using h
  have hsplit : splitSlash ('d' :: 'i' :: 's' :: 't' :: '/' :: 'y' :: t)
      = [['d', 'i', 's', 't'], 'y' :: t] := by
    have h2 := splitSlash_append_slash ['d', 'i', 's', 't'] ('y' :: t) (by decide)
    rw [splitSlash_of_noSlash _ h1] at h2
    exact h2
  unfold cleanPathList
  rw [if_neg (List.cons_ne_nil 'd' _),
    if_neg (show ¬ (('d' :: 'i' :: 's' :: 't' :: '/' :: 'y' :: t : List Char).head? = some '/') from
      fun hx => absurd (Option.some.inj hx) (by decide)),
    hsplit]
  rfl

/-- On a version string with no path separator, the zip-path derivation is
exactly the fixed template with the version substituted. -/
theorem zipPathOfVersion_noSlash (V : String) (hv : noSlash V.data = true) :
    zipPathOfVersion V = "dist/you-are-autosave-v" ++ V ++ ".zip" := by
  have hdata : ("you-are-autosave-v" ++ V ++ ".zip").data
      = 'y' :: ("ou-are-autosave-v".data ++ (V.data ++ ".zip".data)) := by
    rw [String.data_append, String.data_append, List.append_assoc]
    rfl
  have ht : noSlash ("ou-are-autosave-v".data ++ (V.data ++ ".zip".data)) = true := by
    simp only [noSlash, List.all_append, Bool.and_eq_true]
    exact ⟨by decide, hv, by decide⟩
  have hne : ("you-are-autosave-v" ++ V ++ ".zip") ≠ "" := by
    intro hemp
    have h0 : ("you-are-autosave-v" ++ V ++ ".zip").data = ([] : List Char) := by rw [hemp]
    rw [hdata] at h0
    exact List.noConfusion h0
  apply String.ext
  unfold zipPathOfVersion filepathJoin2
  rw [if_neg (by decide : ¬ (("dist" : String) = "")), if_neg hne]
  show cleanPathList ("dist".data ++ '/' :: ("you-are-autosave-v" ++ V ++ ".zip").data)
      = ("dist/you-are-autosave-v" ++ V ++ ".zip").data
  rw [hdata, String.data_append, String.data_append, List.append_assoc]
  exact cleanPathList_dist_zip _ ht

/-- A world whose manifest parses to a version string containing `//`. -/
def slashVersionWorld : World :=
  ⟨.ok "version = \"1//2\"", fun _ => .ok [("version", .str "1//2")],
   fun _ _ => none, fun _ _ => none⟩

/-- C1 counterexample: in `slashVersionWorld` the manifest decodes to version
`1//2`, but the derived path is `dist/you-are-autosave-v1/2.zip` (the join
lexically cleans the doubled separator), not the literal template
`dist/you-are-autosave-v1//2.zip`. -/
theorem c1_counterexample :
    loadManifest slashVersionWorld
      = ([.readFile "blender_manifest.toml", .parseManifest "version = \"1//2\""],
         .ok (BlenderManifest.mk 0 "1//2" "")) ∧
    buildZipPath slashVersionWorld
      = ([.readFile "blender_manifest.toml", .parseManifest "version = \"1//2\""],
         .ok "dist/you-are-autosave-v1/2.zip") ∧
    ("dist/you-are-autosave-v1/2.zip" : String)
      ≠ "dist/you-are-autosave-v" ++ "1//2" ++ ".zip" := by
  refine ⟨by decide, by decide, by decide⟩

/-- C1 (amended): for every world whose manifest decodes to a record whose
version string contains no path separator, `buildZipPath` returns exactly
`dist/you-are-autosave-v` ++ version ++ `.zip`. -/
theorem c1_buildZipPath_template (w : World) (t : List Effect) (m : BlenderManifest)
    (hload : loadManifest w = (t, .ok m)) (hv : noSlash m.Version.data = true) :
    buildZipPath w = (t, .ok ("dist/you-are-autosave-v" ++ m.Version ++ ".zip")) := by
  unfold buildZipPath
  rw [hload]
  show (t, Outcome.ok (zipPathOfVersion m.Version)) = _
  rw [zipPathOfVersion_noSlash _ hv]

/-- A world whose manifest parses to the spec's example version `1.4.2`. -/
def goodVersionWorld : World :=
  ⟨.ok "version = \"1.4.2\"", fun _ => .ok [("version", .str "1.4.2")],
   fun _ _ => none, fun _ _ => none⟩

/-- C1 witness: the spec's example — version `1.4.2` derives
`dist/you-are-autosave-v1.4.2.zip`. -/
theorem c1_witness :
    buildZipPath goodVersionWorld
      = ([.readFile "blender_manifest.toml", .parseManifest "version = \"1.4.2\""],
         .ok "dist/you-are-autosave-v1.4.2.zip") := by
  have h := c1_buildZipPath_template goodVersionWorld
    [.readFile "blender_manifest.toml", .parseManifest "version = \"1.4.2\""]
    (BlenderManifest.mk 0 "1.4.2" "") (by decide) (by decide)
  rw [h]
  decide

/-- C9: the Path Builder is deterministic and pure — two runs over identical
manifest content (same file-read result, same grammar parser) derive the same
output path, whatever the rest of the two worlds do. -/
theorem c9_buildZipPath_deterministic (w1 w2 : World)
    (hread : w1.readFileResult = w2.readFileResult)
    (hparse : w1.parseResult = w2.parseResult) :
    buildZipPath w1 = buildZipPath w2 := by
  have hload : loadManifest w1 = loadManifest w2 := by
    unfold loadManifest
    rw [hread, hparse]
  unfold buildZipPath
  rw [hload]

/-- First of two worlds with identical manifest content but different
directory-creation and process results. -/
def detWorldA : World :=
  ⟨.ok "version = \"0.9.0\"", fun _ => .ok [("version", .str "0.9.0")],
   fun _ _ => none, fun _ _ => none⟩

/-- Second of two worlds with identical manifest content but different
directory-creation and process results. -/
def detWorldB : World :=
  ⟨.ok "version = \"0.9.0\"", fun _ => .ok [("version", .str "0.9.0")],
   fun _ _ => some "mkdir dist: permission denied", fun _ _ => some "exit status 1"⟩

/-- C9 witness: two concrete runs over the same manifest content agree on the
derived path. -/
theorem c9_witness : buildZipPath detWorldA = buildZipPath detWorldB :=
  c9_buildZipPath_deterministic detWorldA detWorldB rfl rfl

/-- C2: when the validate invocation fails, `ValidateAndBuild` stops there —
its whole trace is the single validate spawn (no manifest read, no path
building, no directory creation, no build spawn, no printing) and the
validate failure is the overall result. -/
theorem c2_validate_failure_skips_build (w : World) (e : String)
    (hfail : w.runVResult "blender" ["--command", "extension", "validate"] = some e) :
    ValidateAndBuild w
      = ([.runV "blender" ["--command", "extension", "validate"]], .err e) := by
  unfold ValidateAndBuild Validate shRunV
  rw [hfail]

/-- A world in which the external validate invocation exits non-zero. -/
def validateFailWorld : World :=
  ⟨.ok "version = \"1.0.0\"", fun _ => .ok [("version", .str "1.0.0")],
   fun _ _ => none,
   fun _ args => if args = ["--command", "extension", "validate"]
     then some "running \"blender --command extension validate\" failed with exit code 1"
     else none⟩

/-- C2 witness: a concrete failing validate run aborts the composed target. -/
theorem c2_witness :
    ValidateAndBuild validateFailWorld
      = ([.runV "blender" ["--command", "extension", "validate"]],
         .err "running \"blender --command extension validate\" failed with exit code 1") :=
  c2_validate_failure_skips_build validateFailWorld
    "running \"blender --command extension validate\" failed with exit code 1" rfl

/-- A world where the manifest loads fine but creating the output directory
fails, and where the external build invocation, were it ever reached, would
fail too. -/
def mkdirFailWorld : World :=
  ⟨.ok "version = \"1.4.2\"", fun _ => .ok [("version", .str "1.4.2")],
   fun _ _ => some "mkdir dist: permission denied", fun _ _ => some "exit status 1"⟩

/-- C3 counterexample: when directory creation fails, `Build` does not
proceed — it returns a successful (nil) result at once, its trace containing
no progress print and no external spawn, and in particular not the failing
result the external tool would have returned.  The source's
`if err != nil { return nil }` returns instead of falling through. -/
theorem c3_counterexample :
    Build mkdirFailWorld
      = ([.readFile "blender_manifest.toml", .parseManifest "version = \"1.4.2\"",
          .mkdirAll "dist" 511], .ok ()) ∧
    (Build mkdirFailWorld).1.all (fun ef => !ef.isRunV && !ef.isPrint) = true ∧
    (Build mkdirFailWorld).2 ≠ .err "exit status 1" := by
  refine ⟨by decide, by decide, by decide⟩

/-- C3 (amended): when directory creation fails, the error is swallowed (not
surfaced as the result) and `Build` returns success immediately — it performs
no progress print and no external build invocation; its trace ends at the
directory-creation attempt. -/
theorem c3_mkdir_failure_swallowed (w : World) (t : List Effect) (m : BlenderManifest)
    (e : String) (hload : loadManifest w = (t, .ok m))
    (hmk : w.mkdirAllResult (filepathDir (zipPathOfVersion m.Version)) 511 = some e) :
    Build w
      = (t ++ [.mkdirAll (filepathDir (zipPathOfVersion m.Version)) 511], .ok ()) := by
  have hbz : buildZipPath w = (t, .ok (zipPathOfVersion m.Version)) := by
    unfold buildZipPath
    rw [hload]
  unfold Build
  rw [hbz]
  simp only [hmk]

/-- C3 witness: the concrete mkdir-failure world, via the amended theorem. -/
theorem c3_witness :
    Build mkdirFailWorld
      = ([.readFile "blender_manifest.toml", .parseManifest "version = \"1.4.2\""]
          ++ [.mkdirAll (filepathDir (zipPathOfVersion "1.4.2")) 511], .ok ()) :=
  c3_mkdir_failure_swallowed mkdirFailWorld
    [.readFile "blender_manifest.toml", .parseManifest "version = \"1.4.2\""]
    (BlenderManifest.mk 0 "1.4.2" "") "mkdir dist: permission denied" (by decide) rfl

/-- A world whose manifest file cannot be read. -/
def missingFileWorld : World :=
  ⟨.error "open blender_manifest.toml: no such file or directory",
   fun _ => .error "unreachable", fun _ _ => none, fun _ _ => none⟩

/-- C4: when the manifest file cannot be read, `loadManifest` aborts the
invocation with the descriptive read-failure message, and every operation
built on it stops right there: the whole trace is the single file read — no
parse/decode, no path building, no directory creation, no print, no external
spawn. -/
theorem c4_unreadable_manifest_aborts (w : World) (e : String)
    (hread : w.readFileResult = .error e) :
    loadManifest w
      = ([.readFile "blender_manifest.toml"], .fatal ("cannot read blender manifest: " ++ e)) ∧
    buildZipPath w
      = ([.readFile "blender_manifest.toml"], .fatal ("cannot read blender manifest: " ++ e)) ∧
    Build w
      = ([.readFile "blender_manifest.toml"], .fatal ("cannot read blender manifest: " ++ e)) ∧
    Info w
      = ([.readFile "blender_manifest.toml"], .fatal ("cannot read blender manifest: " ++ e)) := by
  have hl : loadManifest w
      = ([.readFile "blender_manifest.toml"], .fatal ("cannot read blender manifest: " ++ e)) := by
    unfold loadManifest
    rw [hread]
  have hbz : buildZipPath w
      = ([.readFile "blender_manifest.toml"], .fatal ("cannot read blender manifest: " ++ e)) := by
    unfold buildZipPath
    rw [hl]
  refine ⟨hl, hbz, ?_, ?_⟩
  · unfold Build
    rw [hbz]
  · unfold Info
    rw [hl]

/-- C4 witness: the concrete missing-file world aborts everywhere. -/
theorem c4_witness :
    loadManifest missingFileWorld
      = ([.readFile "blender_manifest.toml"],
         .fatal ("cannot read blender manifest: "
           ++ "open blender_manifest.toml: no such file or directory")) ∧
    buildZipPath missingFileWorld
      = ([.readFile "blender_manifest.toml"],
         .fatal ("cannot read blender manifest: "
           ++ "open blender_manifest.toml: no such file or directory")) ∧
    Build missingFileWorld
      = ([.readFile "blender_manifest.toml"],
         .fatal ("cannot read blender manifest: "
           ++ "open blender_manifest.toml: no such file or directory")) ∧
    Info missingFileWorld
      = ([.readFile "blender_manifest.toml"],
         .fatal ("cannot read blender manifest: "
           ++ "open blender_manifest.toml: no such file or directory")) :=
  c4_unreadable_manifest_aborts missingFileWorld
    "open blender_manifest.toml: no such file or directory" rfl

/-- If a document holds a non-integer value under `schema_version`, decoding
it into the manifest struct fails with some error, whatever record it started
from. -/
theorem decodeManifestFields_error_of_bad_schema (doc : TomlDoc) (v : TomlValue)
    (hmem : ("schema_version", v) ∈ doc) (hv : v.isInt = false) :
    ∀ m, ∃ e, decodeManifestFields doc m = .error e := by
  induction doc with
  | nil => cases hmem
  | cons p rest ih =>
    intro m
    obtain ⟨k, v'⟩ := p
    rcases List.mem_cons.mp hmem with heq | htail
    · injection heq with hk hv2
      subst hk
      subst hv2
      cases v with
      | int n => simp [TomlValue.isInt] at hv
      | str s => exact ⟨"toml: cannot decode TOML value into int field SchemaVersion", by simp [decodeManifestFields]⟩
      | boolean b => exact ⟨"toml: cannot decode TOML value into int field SchemaVersion", by simp [decodeManifestFields]⟩
    · by_cases hk : k = "schema_version"
      · subst hk
        cases v' with
        | int n =>
          simpa [decodeManifestFields] using ih htail (BlenderManifest.mk n m.Version m.Name)
        | str s => exact ⟨"toml: cannot decode TOML value into int field SchemaVersion", by simp [decodeManifestFields]⟩
        | boolean b => exact ⟨"toml: cannot decode TOML value into int field SchemaVersion", by simp [decodeManifestFields]⟩
      · by_cases hk2 : k = "version"
        · subst hk2
          cases v' with
          | str s =>
            simpa [decodeManifestFields] using ih htail (BlenderManifest.mk m.SchemaVersion s m.Name)
          | int n => exact ⟨"toml: cannot decode TOML value into string field Version", by simp [decodeManifestFields, hk]⟩
          | boolean b => exact ⟨"toml: cannot decode TOML value into string field Version", by simp [decodeManifestFields, hk]⟩
        · by_cases hk3 : k = "name"
          · subst hk3
            cases v' with
            | str s =>
              simpa [decodeManifestFields] using
                ih htail (BlenderManifest.mk m.SchemaVersion m.Version s)
            | int n => exact ⟨"toml: cannot decode TOML value into string field Name", by simp [decodeManifestFields, hk, hk2]⟩
            | boolean b => exact ⟨"toml: cannot decode TOML value into string field Name", by simp [decodeManifestFields, hk, hk2]⟩
          · simpa [decodeManifestFields, hk, hk2, hk3] using ih htail m

/-- C5: a manifest whose parsed document carries a non-integer value under the
top-level `schema_version` key fails the decode step, and the invocation
aborts unrecoverably with the parse-failure message rather than defaulting
the field or continuing. -/
theorem c5_bad_schema_version_aborts (w : World) (raw : String) (doc : TomlDoc) (v : TomlValue)
    (hread : w.readFileResult = .ok raw) (hparse : w.parseResult raw = .ok doc)
    (hmem : ("schema_version", v) ∈ doc) (hv : v.isInt = false) :
    ∃ msg, loadManifest w
      = ([.readFile "blender_manifest.toml", .parseManifest raw],
         .fatal ("cannot parse blender manifest: " ++ msg)) := by
  obtain ⟨e, he⟩ :=
    decodeManifestFields_error_of_bad_schema doc v hmem hv (BlenderManifest.mk 0 "" "")
  refine ⟨e, ?_⟩
  simp only [loadManifest, hread, hparse, tomlUnmarshalManifest, he]

/-- A world whose manifest holds a string under `schema_version`. -/
def badSchemaWorld : World :=
  ⟨.ok "schema_version = \"two\"", fun _ => .ok [("schema_version", .str "two")],
   fun _ _ => none, fun _ _ => none⟩

/-- C5 witness: a concrete manifest with a string-valued schema version aborts
the load. -/
theorem c5_witness :
    ∃ msg, loadManifest badSchemaWorld
      = ([.readFile "blender_manifest.toml", .parseManifest "schema_version = \"two\""],
         .fatal ("cannot parse blender manifest: " ++ msg)) :=
  c5_bad_schema_version_aborts badSchemaWorld "schema_version = \"two\""
    [("schema_version", .str "two")] (.str "two") rfl rfl (by decide) rfl

/-- An entry whose value has the type its decoded field expects; entries under
unknown keys are unconstrained. -/
def wellTypedEntry : String × TomlValue → Bool
  | (k, v) =>
    if k = "schema_version" then v.isInt
    else if k = "version" ∨ k = "name" then v.isStr
    else true

/-- A world whose manifest is syntactically valid TOML, lacks the `name` key,
but holds an integer under `version`. -/
def intVersionWorld : World :=
  ⟨.ok "version = 3", fun _ => .ok [("version", .int 3)],
   fun _ _ => none, fun _ _ => none⟩

/-- C6 counterexample: the parsed document `version = 3` lacks the top-level
`name` key, yet decoding does not succeed — the integer under `version` is a
type mismatch, so the decode fails and the load aborts instead of yielding a
record with an empty name. -/
theorem c6_counterexample :
    ([("version", TomlValue.int 3)] : TomlDoc).all (fun p => !(p.1 == "name")) = true ∧
    tomlUnmarshalManifest [("version", TomlValue.int 3)]
      = .error "toml: cannot decode TOML value into string field Version" ∧
    loadManifest intVersionWorld
      = ([.readFile "blender_manifest.toml", .parseManifest "version = 3"],
         .fatal ("cannot parse blender manifest: "
           ++ "toml: cannot decode TOML value into string field Version")) := by
  refine ⟨by decide, rfl, by decide⟩

/-- Decoding a document whose entries are all well typed never fails, and
leaves any field whose key never occurs at the value it started with — in
particular a document without `name` keeps the accumulator's name. -/
theorem decodeManifestFields_ok_of_wellTyped (doc : TomlDoc)
    (hwt : doc.all wellTypedEntry = true)
    (hname : doc.all (fun p => !(p.1 == "name")) = true) :
    ∀ m0, ∃ m, decodeManifestFields doc m0 = .ok m ∧ m.Name = m0.Name := by
  induction doc with
  | nil => exact fun m0 => ⟨m0, rfl, rfl⟩
  | cons p rest ih =>
    intro m0
    obtain ⟨k, v⟩ := p
    simp only [List.all_cons, Bool.and_eq_true] at hwt hname
    by_cases hk : k = "schema_version"
    · subst hk
      cases v with
      | int n =>
        simpa [decodeManifestFields] using ih hwt.2 hname.2 (BlenderManifest.mk n m0.Version m0.Name)
      | str s => simp [wellTypedEntry, TomlValue.isInt] at hwt
      | boolean b => simp [wellTypedEntry, TomlValue.isInt] at hwt
    · by_cases hk2 : k = "version"
      · subst hk2
        cases v with
        | str s =>
          simpa [decodeManifestFields] using
            ih hwt.2 hname.2 (BlenderManifest.mk m0.SchemaVersion s m0.Name)
        | int n => simp [wellTypedEntry, TomlValue.isStr] at hwt
        | boolean b => simp [wellTypedEntry, TomlValue.isStr] at hwt
      · have hk3 : ¬ (k = "name") := by simpa using hname.1
        have hstep : decodeManifestFields ((k, v) :: rest) m0 = decodeManifestFields rest m0 := by
          simp [decodeManifestFields, hk, hk2, hk3]
        rw [hstep]
        exact ih hwt.2 hname.2 m0

/-- C6 (amended): a syntactically valid manifest that lacks the top-level
`name` key decodes successfully to a record with an empty name, provided its
remaining entries carry values of the declared field types; the empty
document yields the all-zero record (missing keys default to zero values);
and an entry under any unknown key is skipped without effect. -/
theorem c6_missing_name_defaults_empty (doc : TomlDoc)
    (hwt : doc.all wellTypedEntry = true)
    (hname : doc.all (fun p => !(p.1 == "name")) = true) :
    (∃ m, tomlUnmarshalManifest doc = .ok m ∧ m.Name = "") ∧
    tomlUnmarshalManifest [] = .ok (BlenderManifest.mk 0 "" "") ∧
    (∀ (k : String) (v : TomlValue) (rest : TomlDoc) (m0 : BlenderManifest),
      k ≠ "schema_version" → k ≠ "version" → k ≠ "name" →
      decodeManifestFields ((k, v) :: rest) m0 = decodeManifestFields rest m0) := by
  refine ⟨?_, rfl, ?_⟩
  · simpa [tomlUnmarshalManifest] using
      decodeManifestFields_ok_of_wellTyped doc hwt hname (BlenderManifest.mk 0 "" "")
  · intro k v rest m0 h1 h2 h3
    simp [decodeManifestFields, h1, h2, h3]

/-- C6 witness: a concrete document without `name` (and with an extra unknown
key) decodes to an empty-name record. -/
theorem c6_witness :
    (∃ m, tomlUnmarshalManifest
        [("schema_version", TomlValue.int 1), ("version", TomlValue.str "0.9.0"),
         ("blender_version_min", TomlValue.str "4.2.0")] = .ok m ∧ m.Name = "") ∧
    tomlUnmarshalManifest [] = .ok (BlenderManifest.mk 0 "" "") ∧
    (∀ (k : String) (v : TomlValue) (rest : TomlDoc) (m0 : BlenderManifest),
      k ≠ "schema_version" → k ≠ "version" → k ≠ "name" →
      decodeManifestFields ((k, v) :: rest) m0 = decodeManifestFields rest m0) :=
  c6_missing_name_defaults_empty
    [("schema_version", TomlValue.int 1), ("version", TomlValue.str "0.9.0"),
     ("blender_version_min", TomlValue.str "4.2.0")] (by decide) (by decide)

/-- Loading the manifest never writes to stdout, whatever the world. -/
theorem loadManifest_no_print (w : World) :
    (loadManifest w).1.filter Effect.isPrint = [] := by
  cases hr : w.readFileResult with
  | error e => simp [loadManifest, hr, Effect.isPrint]
  | ok raw =>
    cases hp : w.parseResult raw with
    | error e => simp [loadManifest, hr, hp, Effect.isPrint]
    | ok doc =>
      cases hu : tomlUnmarshalManifest doc with
      | error e => simp [loadManifest, hr, hp, hu, Effect.isPrint]
      | ok m => simp [loadManifest, hr, hp, hu, Effect.isPrint]

/-- C7: whenever the manifest loads to a record, `Info` appends exactly the
two lines `Name   : <name>` then `Version: <version>` to the load's trace, so
its stdout output is exactly those two lines in that order. -/
theorem c7_info_prints (w : World) (t : List Effect) (m : BlenderManifest)
    (hload : loadManifest w = (t, .ok m)) :
    Info w = (t ++ [.printLine ("Name   : " ++ m.Name),
                    .printLine ("Version: " ++ m.Version)], .ok ()) ∧
    (Info w).1.filter Effect.isPrint
      = [.printLine ("Name   : " ++ m.Name), .printLine ("Version: " ++ m.Version)] := by
  have hinfo : Info w = (t ++ [.printLine ("Name   : " ++ m.Name),
      .printLine ("Version: " ++ m.Version)], .ok ()) := by
    unfold Info
    rw [hload]
  have ht : t.filter Effect.isPrint = [] := by
    have h1 : t = (loadManifest w).1 := by rw [hload]
    rw [h1]
    exact loadManifest_no_print w
  refine ⟨hinfo, ?_⟩
  rw [hinfo, List.filter_append, ht]
  rfl

/-- A world whose manifest carries the spec's example name and version. -/
def infoWorld : World :=
  ⟨.ok "schema_version = 1\nversion = \"0.9.0\"\nname = \"You Are Autosave\"",
   fun _ => .ok [("schema_version", .int 1), ("version", .str "0.9.0"),
                 ("name", .str "You Are Autosave")],
   fun _ _ => none, fun _ _ => none⟩

/-- C7 witness: on the example manifest, `Info` prints exactly
`Name   : You Are Autosave` then `Version: 0.9.0`. -/
theorem c7_witness :
    Info infoWorld
      = ([.readFile "blender_manifest.toml",
          .parseManifest "schema_version = 1\nversion = \"0.9.0\"\nname = \"You Are Autosave\"",
          .printLine "Name   : You Are Autosave", .printLine "Version: 0.9.0"], .ok ()) ∧
    (Info infoWorld).1.filter Effect.isPrint
      = [.printLine "Name   : You Are Autosave", .printLine "Version: 0.9.0"] := by
  have h := c7_info_prints infoWorld
    [.readFile "blender_manifest.toml",
     .parseManifest "schema_version = 1\nversion = \"0.9.0\"\nname = \"You Are Autosave\""]
    (BlenderManifest.mk 1 "0.9.0" "You Are Autosave") (by decide)
  constructor
  · rw [h.1]
    decide
  · rw [h.2]
    decide

/-- C8: `Validate` spawns exactly `blender` with the fixed argument vector
`--command extension validate`, and passes the external result through
unchanged — success on nil, the wrapped error on a failing exit. -/
theorem c8_validate_passthrough (w : World) :
    (Validate w).1 = [.runV "blender" ["--command", "extension", "validate"]] ∧
    (w.runVResult "blender" ["--command", "extension", "validate"] = none →
      (Validate w).2 = .ok ()) ∧
    (∀ e, w.runVResult "blender" ["--command", "extension", "validate"] = some e →
      (Validate w).2 = .err e) := by
  refine ⟨rfl, ?_, ?_⟩
  · intro h
    unfold Validate shRunV
    rw [h]
  · intro e h
    unfold Validate shRunV
    rw [h]

/-- C8 witness: the fixed argument vector and a pass-through of a concrete
failing exit. -/
theorem c8_witness :
    (Validate validateFailWorld).1
      = [.runV "blender" ["--command", "extension", "validate"]] ∧
    (Validate validateFailWorld).2
      = .err "running \"blender --command extension validate\" failed with exit code 1" :=
  ⟨(c8_validate_passthrough validateFailWorld).1,
   (c8_validate_passthrough validateFailWorld).2.2
     "running \"blender --command extension validate\" failed with exit code 1" rfl⟩

/-- C10: the fifth, argument-less operation `Version` reads and decodes the
manifest with the root package's own two-field record type, prints exactly
the decoded version string (as one stdout line), and aborts unrecoverably if
the file cannot be read or its content cannot be parsed or decoded. -/
theorem c10_version_operation (w : World) :
    (∀ e, w.readFileResult = .error e →
      Version w = ([.readFile "blender_manifest.toml"],
        .fatal ("cannot read blender manifest: " ++ e))) ∧
    (∀ raw e, w.readFileResult = .ok raw → w.parseResult raw = .error e →
      Version w = ([.readFile "blender_manifest.toml", .parseManifest raw],
        .fatal ("cannot parse blender manifest: " ++ e))) ∧
    (∀ raw doc e, w.readFileResult = .ok raw → w.parseResult raw = .ok doc →
      tomlUnmarshalRootManifest doc = .error e →
      Version w = ([.readFile "blender_manifest.toml", .parseManifest raw],
        .fatal ("cannot parse blender manifest: " ++ e))) ∧
    (∀ raw doc m, w.readFileResult = .ok raw → w.parseResult raw = .ok doc →
      tomlUnmarshalRootManifest doc = .ok m →
      Version w = ([.readFile "blender_manifest.toml", .parseManifest raw,
        .printLine m.Version], .ok ())) := by
  refine ⟨?_, ?_, ?_, ?_⟩
  · intro e h
    simp only [Version, h]
  · intro raw e h1 h2
    simp only [Version, h1, h2]
  · intro raw doc e h1 h2 h3
    simp only [Version, h1, h2, h3]
  · intro raw doc m h1 h2 h3
    simp only [Version, h1, h2, h3]

/-- C10 witness: on the example manifest the root `Version` task prints
exactly the version string; the root record ignores the `name` key it does
not declare. -/
theorem c10_witness :
    Version infoWorld
      = ([.readFile "blender_manifest.toml",
          .parseManifest "schema_version = 1\nversion = \"0.9.0\"\nname = \"You Are Autosave\"",
          .printLine "0.9.0"], .ok ()) :=
  (c10_version_operation infoWorld).2.2.2
    "schema_version = 1\nversion = \"0.9.0\"\nname = \"You Are Autosave\""
    [("schema_version", .int 1), ("version", .str "0.9.0"), ("name", .str "You Are Autosave")]
    (RootBlenderManifest.mk 1 "0.9.0") rfl rfl rfl
